import Mathlib

/-!
Verification of the GEDCOM average-lifespan analyser (`keski.py`).

The development shallowly embeds the program: the year extractor
`extract_year`, the line-oriented parser `parse_gedcom_to_df`, and the
aggregation pipeline (filtering, decade binning, group statistics,
gap-filling merge, rounding) that the Streamlit layer runs on an
uploaded document.  Machine floats of the pandas pipeline are embedded
as exact rationals; rounding is round-half-to-even as numpy performs it.
-/

/-- Value of a decimal digit character. -/
def digitVal (c : Char) : Nat := c.toNat - '0'.toNat

/-- Reads four leading decimal digits, as `re` matching `\x7bd\x7b4\x7d\x7d`
does at one position: it succeeds iff the next four characters are digits,
regardless of what follows. -/
def fourDigitsAt : List Char → Option Nat
  | a :: b :: c :: d :: _ =>
    if a.isDigit ∧ b.isDigit ∧ c.isDigit ∧ d.isDigit then
      some (((digitVal a * 10 + digitVal b) * 10 + digitVal c) * 10 + digitVal d)
    else
      none
  | _ => none

/-- Left-to-right scan of `re.search(r'\d\x7b4\x7d', s)`: first position where
four consecutive digits start. -/
def scanYear : List Char → Option Nat
  | [] => none
  | c :: cs =>
    match fourDigitsAt (c :: cs) with
    | some n => some n
    | none => scanYear cs

/-- `extract_year(date_str)` from `keski.py`: `None` for an absent or empty
(falsy) argument, else the first four-digit match of `re.search(r'\d\x7b4\x7d', ...)`
converted with `int`, and `None` when there is no match. -/
def extract_year (date_str : Option String) : Option Nat :=
  match date_str with
  | none => none
  | some s => if s = "" then none else scanYear s.data

/-- Follows the spec's words for the year extractor: position `i` starts a
run of exactly four consecutive decimal digits, that is four digits bounded
by a non-digit or the edge of the fragment on either side. -/
def exactFourRunAt (cs : List Char) (i : Nat) : Bool :=
  (((cs.drop i).take 4).length == 4) &&
  ((cs.drop i).take 4).all Char.isDigit &&
  (i == 0 || !(cs.getD (i - 1) ' ').isDigit) &&
  !(cs.getD (i + 4) ' ').isDigit

/-- Follows the spec's words: the integer value of the first run of exactly
four consecutive decimal digits, scanning left to right, and no value when
the fragment is absent, empty, or has no such run. -/
def specExtractYear (s : Option String) : Option Nat :=
  match s with
  | none => none
  | some str =>
    (((List.range str.data.length).find? (exactFourRunAt str.data)).bind
      fun i => fourDigitsAt (str.data.drop i))

-- Parser embedding --------------------------------------------------------

/-- One parsed individual: `{'id': tag, 'birth_year': ..., 'death_year': ...}`. -/
structure Indi where
  id : String
  birth_year : Option Nat
  death_year : Option Nat
deriving DecidableEq, Repr

/-- The loop state of `parse_gedcom_to_df`: the `individuals` list built so
far, the `current_indi` under construction, and the `last_tag` memory. -/
structure PState where
  individuals : List Indi
  current : Option Indi
  last_tag : Option String
deriving DecidableEq, Repr

/-- Splits a character list at its first space, like one step of
Python `str.split(' ', ...)`. -/
def breakSpace : List Char → List Char × Option (List Char)
  | [] => ([], none)
  | c :: cs =>
    if c = ' ' then ([], some cs)
    else
      let p := breakSpace cs
      (c :: p.1, p.2)

/-- Python `s.split(' ', 2)`: at most two splits at single spaces, the
remainder kept whole (empty fields between consecutive spaces preserved). -/
def pySplit2 (s : String) : List String :=
  match breakSpace s.data with
  | (a, none) => [String.mk a]
  | (a, some r1) =>
    match breakSpace r1 with
    | (b, none) => [String.mk a, String.mk b]
    | (b, some r2) => [String.mk a, String.mk b, String.mk r2]

/-- Python `line.strip()`: drop whitespace from both ends. -/
def pyStrip (s : String) : String :=
  String.mk (((s.data.dropWhile Char.isWhitespace).reverse.dropWhile Char.isWhitespace).reverse)

/-- The `line.strip()` followed by `line.split(' ', 2)` of the parser loop. -/
def lineParts (line : String) : List String := pySplit2 (pyStrip line)

/-- One iteration of the `for line in lines` loop of `parse_gedcom_to_df`. -/
def processLine (s : PState) (rawLine : String) : PState :=
  match lineParts rawLine with
  | [] => s
  | [_] => s
  | level :: tag :: rest =>
    let payload := rest.headD ""
    if level = "0" ∧ payload = "INDI" then
      { individuals := s.individuals ++ s.current.toList
        current := some ⟨tag, none, none⟩
        last_tag := none }
    else
      match s.current with
      | none => s
      | some indi =>
        let lt : Option String :=
          if level = "1" then
            (if tag = "BIRT" ∨ tag = "DEAT" then some tag else none)
          else s.last_tag
        if level = "2" ∧ tag = "DATE" ∧ lt.isSome then
          let year := extract_year (some payload)
          if lt = some "BIRT" then
            { s with current := some { indi with birth_year := year }, last_tag := lt }
          else if lt = some "DEAT" then
            { s with current := some { indi with death_year := year }, last_tag := lt }
          else
            { s with last_tag := lt }
        else
          { s with last_tag := lt }

/-- Running the parser loop over a list of lines, then appending the last
individual still under construction, as the code does after the loop. -/
def parseLines (lines : List String) : List Indi :=
  let final := lines.foldl processLine ⟨[], none, none⟩
  final.individuals ++ final.current.toList

/-- Splits a character list at newline characters, keeping empty segments. -/
def splitNl : List Char → List (List Char)
  | [] => [[]]
  | c :: cs =>
    if c = '\n' then [] :: splitNl cs
    else
      match splitNl cs with
      | l :: ls => (c :: l) :: ls
      | [] => [[c]]

/-- Python `file_content.splitlines()` for newline-separated text. -/
def pySplitlines (s : String) : List String := (splitNl s.data).map String.mk

/-- `parse_gedcom_to_df(file_content)`: split into lines, run the loop. -/
def parse_gedcom_to_df (file_content : String) : List Indi :=
  parseLines (pySplitlines file_content)

/-- The tag token of an individual-marker line: a line whose stripped, split
form has depth token "0" and payload "INDI" (`0 @ID@ INDI`).  `none` for
every other line. -/
def markerTag (line : String) : Option String :=
  match lineParts line with
  | level :: tag :: rest => if level = "0" ∧ rest.headD "" = "INDI" then some tag else none
  | _ => none

/-- Identifiers already produced by the loop state: the finalized
individuals followed by the one still under construction. -/
def outIds (s : PState) : List String := (s.individuals ++ s.current.toList).map Indi.id

-- Aggregation pipeline ----------------------------------------------------

/-- `start_year = 1800` of the Streamlit block. -/
def start_year : Nat := 1800

/-- `end_year = 1899` of the Streamlit block. -/
def end_year : Nat := 1899

/-- Row of pandas `df` after parsing has both years iff neither is `NaN`;
`df.dropna(subset=['birth_year', 'death_year'])` keeps exactly these rows. -/
def hasBoth (r : Indi) : Bool := r.birth_year.isSome && r.death_year.isSome

/-- `df['age'] = df['death_year'] - df['birth_year']` (an integer, possibly
negative, for rows that survived `dropna`). -/
def ageOf (r : Indi) : Int := (r.death_year.getD 0 : Int) - (r.birth_year.getD 0 : Int)

/-- The mask `(df['age'] >= 0) & (df['age'] < 120)`. -/
def ageOk (r : Indi) : Bool := decide (0 ≤ ageOf r) && decide (ageOf r < 120)

/-- The mask `(df['birth_year'] >= start_year) & (df['birth_year'] <= end_year)`. -/
def inRange (r : Indi) : Bool :=
  decide (start_year ≤ r.birth_year.getD 0) && decide (r.birth_year.getD 0 ≤ end_year)

/-- The `df` of lines 99–105: drop rows missing a year, then drop
implausible ages.  Its length is the coverage figure shown at line 152. -/
def dfValid (rs : List Indi) : List Indi := (rs.filter hasBoth).filter ageOk

/-- `filtered_df = df.loc[mask]`: restrict to birth years in the window. -/
def filteredOf (rs : List Indi) : List Indi := (dfValid rs).filter inRange

/-- `(filtered_df['birth_year'] // 10) * 10`, the decade bin. -/
def decadeOf (r : Indi) : Nat := r.birth_year.getD 0 / 10 * 10

/-- One row of the statistics table: decade, mean age (exact rational in
place of the float), and head-count. -/
structure StatRow where
  decade : Nat
  mean_age : ℚ
  count : Nat
deriving DecidableEq, Repr

/-- Python `range(a, b, step)` for a positive step. -/
def pyRangeStep (a b step : Nat) : List Nat :=
  (List.range ((b - a + step - 1) / step)).map (fun k => a + step * k)

/-- `all_decades = range(start_year, end_year + 1, 10)`. -/
def all_decades : List Nat := pyRangeStep start_year (end_year + 1) 10

/-- Deduplication of group keys, as pandas `groupby` keeps one group per
distinct decade value. -/
def dedupNats : List Nat → List Nat
  | [] => []
  | x :: xs => if xs.contains x then dedupNats xs else x :: dedupNats xs

/-- Insert into a sorted list (ascending). -/
def insertSorted (d : Nat) : List Nat → List Nat
  | [] => [d]
  | x :: xs => if d ≤ x then d :: x :: xs else x :: insertSorted d xs

/-- Ascending sort of group keys, as pandas `groupby(...)` sorts them. -/
def sortNats : List Nat → List Nat
  | [] => []
  | x :: xs => insertSorted x (sortNats xs)

/-- The aggregated row of one decade group: `agg(['mean', 'count'])`. -/
def groupRow (rs : List Indi) (d : Nat) : StatRow :=
  let g := rs.filter (fun r => decide (decadeOf r = d))
  ⟨d, ((g.map ageOf).sum : ℚ) / (g.length : ℚ), g.length⟩

/-- `stats = filtered_df.groupby('decade')['age'].agg(['mean', 'count'])`:
one row per decade present in the data, keys ascending. -/
def groupStats (rs : List Indi) : List StatRow :=
  (sortNats (dedupNats (rs.map decadeOf))).map (groupRow rs)

/-- `pd.merge(all_decades, stats, on='Vuosikymmen', how='left').fillna(0)`:
every decade of `all_decades`, in that order, taking the grouped row when
one exists and zeros otherwise. -/
def mergedStats (rs : List Indi) : List StatRow :=
  all_decades.map fun d =>
    match (groupStats rs).find? (fun row => decide (row.decade = d)) with
    | some row => row
    | none => ⟨d, 0, 0⟩

/-- Floor of a rational (`num.fdiv den`, the denominator being positive). -/
def qfloor (q : ℚ) : ℤ := q.num.fdiv (q.den : ℤ)

/-- Round to the nearest integer, ties to even — the rounding of numpy,
which pandas `round` applies, on an exact rational value. -/
def halfEven (x : ℚ) : ℤ :=
  let n := qfloor x
  if x - (n : ℚ) < 1/2 then n
  else if (1/2 : ℚ) < x - (n : ℚ) then n + 1
  else if n.emod 2 = 0 then n else n + 1

/-- `stats['Keski-ikä'].round(1)`: round to one decimal place. -/
def roundTo1 (q : ℚ) : ℚ := (halfEven (q * 10) : ℚ) / 10

/-- The statistics table handed to the presentation layer (before the
decade column is concatenated with the `-luku` display suffix). -/
def finalStats (rs : List Indi) : List StatRow :=
  (mergedStats rs).map fun row => { row with mean_age := roundTo1 row.mean_age }

/-- Outcome of one upload as the Streamlit block surfaces it: the `except`
error message, the `st.warning` no-data notice, or the statistics together
with `int(stats['Henkilömäärä'].sum())` and the coverage count `len(df)`. -/
inductive AppResult where
  | error : AppResult
  | noData : AppResult
  | stats : List StatRow → Nat → Nat → AppResult
deriving DecidableEq, Repr

/-- Lines 95–153 of `keski.py` on decoded file content.  When the parser
finds no individuals, `pd.DataFrame([])` has no columns, so
`df.dropna(subset=['birth_year', 'death_year'])` raises a `KeyError`,
which the surrounding `try` converts into the error message. -/
def analyze (content : String) : AppResult :=
  let recs := parse_gedcom_to_df content
  if recs.isEmpty then AppResult.error
  else
    let df := dfValid recs
    let fdf := df.filter inRange
    if fdf.isEmpty then AppResult.noData
    else AppResult.stats (finalStats fdf) (((finalStats fdf).map StatRow.count).sum) df.length

/-- Coverage figure of an outcome, when one was reported. -/
def coverageOf : AppResult → Option Nat
  | AppResult.stats _ _ c => some c
  | _ => none

/-- Sample record sequence with one individual, born 1850, died 1920. -/
def sampleRecs : List Indi := [⟨"@A@", some 1850, some 1920⟩]

/-- Sample document: individual A born 1850, died 1920 (age 70) and
individual B born 1950, died 1940 (both years present, age negative). -/
def sampleDoc : String :=
  "0 @A@ INDI\n1 BIRT\n2 DATE 1850\n1 DEAT\n2 DATE 1920\n0 @B@ INDI\n1 BIRT\n2 DATE 1950\n1 DEAT\n2 DATE 1940"

/-- The decade-1850 row the aggregation produces for `sampleRecs`. -/
def sampleRow : StatRow :=
  { groupRow sampleRecs 1850 with mean_age := roundTo1 (groupRow sampleRecs 1850).mean_age }

-- Helper lemmas ------------------------------------------------------------

/-- The left-to-right scan of `re.search` finds the first position where four
consecutive digits start, and yields their value. -/
theorem scanYear_eq_find (cs : List Char) :
    scanYear cs =
      (((List.range cs.length).find? fun i => (fourDigitsAt (cs.drop i)).isSome).bind
        fun i => fourDigitsAt (cs.drop i)) := by
  induction cs with
  | nil => simp [scanYear]
  | cons c cs ih =>
    rw [scanYear]
    cases h : fourDigitsAt (c :: cs) with
    | some n =>
      rw [List.length_cons, List.range_succ_eq_map, List.find?_cons_of_pos]
      · simp [h]
      · simp [h]
    | none =>
      rw [List.length_cons, List.range_succ_eq_map, List.find?_cons_of_neg]
      · rw [List.find?_map]
        rw [ih]
        cases hf : (List.range cs.length).find? fun i => (fourDigitsAt (cs.drop i)).isSome with
        | none => simp [hf, Function.comp_def]
        | some i => simp [hf, Function.comp_def]
      · simp [h]

/-- Dropping at or past the end of the fragment leaves no room for digits. -/
theorem fourDigitsAt_drop_of_le {cs : List Char} {i : Nat} (h : cs.length ≤ i) :
    fourDigitsAt (cs.drop i) = none := by
  rw [List.drop_eq_nil_of_le h]
  rfl

-- Claim theorems -----------------------------------------------------------

/-- C2 counterexample: on the fragment "12345 1860" the first run of exactly
four consecutive decimal digits is 1860 (the run 12345 has five digits), yet
`extract_year` returns 1234, the first four-digit window of `re.search`. -/
theorem extract_year_not_first_exact_run :
    extract_year (some "12345 1860") = some 1234 ∧
    specExtractYear (some "12345 1860") = some 1860 := by
  decide

/-- C2 (amended): for every fragment, `extract_year` returns the integer
value of the four digits starting at the leftmost position where four
consecutive decimal digits occur — whether or not the digit run extends
further — and returns no value exactly when the fragment is absent, empty,
or has no four consecutive digits anywhere; it is total, so no error is
ever raised. -/
theorem extract_year_first_window (str : String) :
    (extract_year (some str) =
      (((List.range str.data.length).find? fun i => (fourDigitsAt (str.data.drop i)).isSome).bind
        fun i => fourDigitsAt (str.data.drop i))) ∧
    (extract_year (some str) = none ↔ ∀ i, fourDigitsAt (str.data.drop i) = none) ∧
    extract_year none = none := by
  have hmain : extract_year (some str) =
      (((List.range str.data.length).find? fun i => (fourDigitsAt (str.data.drop i)).isSome).bind
        fun i => fourDigitsAt (str.data.drop i)) := by
    by_cases h : str = ""
    · subst h; decide
    · simpa [extract_year, h] using scanYear_eq_find str.data
  refine ⟨hmain, ?_, rfl⟩
  rw [hmain]
  cases hf : (List.range str.data.length).find? fun i => (fourDigitsAt (str.data.drop i)).isSome with
  | none =>
    simp only [Option.none_bind, true_iff]
    intro i
    by_cases hi : i < str.data.length
    · have := (List.find?_eq_none.mp hf) i (List.mem_range.mpr hi)
      simpa using this
    · exact fourDigitsAt_drop_of_le (Nat.le_of_not_lt hi)
  | some i =>
    have hp := List.find?_some hf
    simp only [Option.isSome_iff_exists] at hp
    obtain ⟨n, hn⟩ := hp
    simp only [Option.some_bind, hn]
    constructor
    · intro h; cases h
    · intro h
      have := h i
      rw [hn] at this
      cases this

/-- One loop iteration appends exactly the identifier of an
individual-marker line to the identifiers produced, and nothing else. -/
theorem outIds_processLine (s : PState) (line : String) :
    outIds (processLine s line) = outIds s ++ (markerTag line).toList := by
  unfold processLine markerTag
  cases h : lineParts line with
  | nil => simp
  | cons level rest0 =>
    cases rest0 with
    | nil => simp
    | cons tag rest =>
      by_cases hm : level = "0" ∧ rest.headD "" = "INDI"
      · obtain ⟨hm1, hm2⟩ := hm
        subst hm1
        simp_all [outIds]
      · simp only [hm, if_false]
        cases hc : s.current with
        | none => simp [outIds, hc]
        | some indi =>
          simp only
          split <;> (try split) <;> (try split) <;> (try split) <;> simp_all [outIds, hc]

/-- The loop over a list of lines appends the marker identifiers of those
lines, in order. -/
theorem outIds_foldl (lines : List String) (s : PState) :
    outIds (lines.foldl processLine s) = outIds s ++ lines.filterMap markerTag := by
  induction lines generalizing s with
  | nil => simp
  | cons line lines ih =>
    rw [List.foldl_cons, ih, outIds_processLine]
    cases h : markerTag line <;> simp [List.filterMap_cons, h]

/-- Identifiers of the parsed records are the marker tags of the document's
lines, in order of appearance. -/
theorem parse_ids (content : String) :
    (parse_gedcom_to_df content).map Indi.id = (pySplitlines content).filterMap markerTag := by
  have := outIds_foldl (pySplitlines content) ⟨[], none, none⟩
  simpa [parse_gedcom_to_df, parseLines, outIds] using this

/-- C4: every input document with N individual-marker lines (depth-0 lines
whose payload is the INDI keyword) parses to exactly N records, in input
order — the last individual needs no trailing marker to be included — and
each record's id is the tag token of its marker line. -/
theorem parser_marker_records (content : String) :
    (parse_gedcom_to_df content).map Indi.id = (pySplitlines content).filterMap markerTag ∧
    (parse_gedcom_to_df content).length =
      ((pySplitlines content).countP fun l => (markerTag l).isSome) := by
  refine ⟨parse_ids content, ?_⟩
  have h1 : (parse_gedcom_to_df content).length =
      ((parse_gedcom_to_df content).map Indi.id).length := by simp
  rw [h1, parse_ids content]
  induction pySplitlines content with
  | nil => simp
  | cons l ls ih =>
    rw [List.filterMap_cons, List.countP_cons]
    cases h : markerTag l <;> simp [h, ih]

/-- C8 counterexample: a document whose two individual-marker lines carry
the same tag token parses to two records with equal ids, so ids are not
pairwise distinct within one parse. -/
theorem parser_ids_not_nodup :
    (parse_gedcom_to_df "0 @A@ INDI\n0 @A@ INDI").map Indi.id = ["@A@", "@A@"] ∧
    ¬ ((parse_gedcom_to_df "0 @A@ INDI\n0 @A@ INDI").map Indi.id).Nodup := by
  decide

/-- C8 (amended): the id fields of the parsed records are exactly the tag
tokens of the document's individual-marker lines, in order; they are
pairwise distinct whenever those tag tokens are pairwise distinct — the
parser itself enforces no uniqueness. -/
theorem parser_ids_nodup (content : String)
    (h : ((pySplitlines content).filterMap markerTag).Nodup) :
    ((parse_gedcom_to_df content).map Indi.id).Nodup := by
  rw [parse_ids]
  exact h

/-- Witness for C8 (amended) at a two-individual document with distinct
marker tags. -/
theorem parser_ids_nodup_witness :
    ((parse_gedcom_to_df "0 @A@ INDI\n0 @B@ INDI").map Indi.id).Nodup :=
  parser_ids_nodup "0 @A@ INDI\n0 @B@ INDI" (by decide)

/-- C5: while an individual is under construction, a depth-1 line whose tag
is neither BIRT nor DEAT clears the last-relevant-tag memory and leaves the
record untouched, and from that cleared state a depth-2 DATE line leaves
the record's birth and death years untouched as well. -/
theorem depth1_other_tag_clears (s : PState) (r : Indi) (l1 l2 t : String)
    (hcur : s.current = some r)
    (h1 : (lineParts l1).take 2 = ["1", t])
    (hb : t ≠ "BIRT") (hd : t ≠ "DEAT")
    (h2 : (lineParts l2).take 2 = ["2", "DATE"]) :
    (processLine s l1).last_tag = none ∧
    (processLine s l1).current = some r ∧
    (processLine (processLine s l1) l2).current = some r := by
  have e1 : ∃ rest, lineParts l1 = "1" :: t :: rest := by
    cases e : lineParts l1 with
    | nil => rw [e] at h1; simp at h1
    | cons a rest0 =>
      cases rest0 with
      | nil => rw [e] at h1; simp at h1
      | cons b rest =>
        rw [e, show (a :: b :: rest).take 2 = [a, b] from rfl] at h1
        obtain ⟨ha, hbt⟩ := List.cons.inj h1
        obtain ⟨hbt, -⟩ := List.cons.inj hbt
        exact ⟨rest, by rw [ha, hbt]⟩
  have e2 : ∃ rest, lineParts l2 = "2" :: "DATE" :: rest := by
    cases e : lineParts l2 with
    | nil => rw [e] at h2; simp at h2
    | cons a rest0 =>
      cases rest0 with
      | nil => rw [e] at h2; simp at h2
      | cons b rest =>
        rw [e, show (a :: b :: rest).take 2 = [a, b] from rfl] at h2
        obtain ⟨ha, hbt⟩ := List.cons.inj h2
        obtain ⟨hbt, -⟩ := List.cons.inj hbt
        exact ⟨rest, by rw [ha, hbt]⟩
  obtain ⟨rest1, e1⟩ := e1
  obtain ⟨rest2, e2⟩ := e2
  have step1 : processLine s l1 = { s with last_tag := none } := by
    unfold processLine
    rw [e1]
    simp [hcur, hb, hd]
  have step2 : (processLine { s with last_tag := none } l2).current = s.current := by
    unfold processLine
    rw [e2]
    simp [hcur]
  rw [step1]
  exact ⟨rfl, hcur, by rw [step2]; exact hcur⟩

/-- Witness for C5: an OCCU line between a BIRT event and a stray DATE line
clears the memory, and the date does not land in the record. -/
theorem depth1_other_tag_clears_witness :
    (processLine ⟨[], some ⟨"@I1@", none, none⟩, some "BIRT"⟩ "1 OCCU Farmer").last_tag = none ∧
    (processLine ⟨[], some ⟨"@I1@", none, none⟩, some "BIRT"⟩ "1 OCCU Farmer").current =
      some ⟨"@I1@", none, none⟩ ∧
    (processLine (processLine ⟨[], some ⟨"@I1@", none, none⟩, some "BIRT"⟩ "1 OCCU Farmer")
        "2 DATE 1850").current = some ⟨"@I1@", none, none⟩ :=
  depth1_other_tag_clears ⟨[], some ⟨"@I1@", none, none⟩, some "BIRT"⟩ ⟨"@I1@", none, none⟩
    "1 OCCU Farmer" "2 DATE 1850" "OCCU" rfl (by decide) (by decide) (by decide) (by decide)

/-- C10: while an individual is under construction and the
last-relevant-tag memory holds an event tag, a depth-2 DATE line whose
payload contains no four-digit run overwrites the corresponding year field
with absent — even a year stored by an earlier date line is lost. -/
theorem date_line_overwrites_with_none (s : PState) (r : Indi) (l t p : String)
    (hcur : s.current = some r)
    (hlt : s.last_tag = some t)
    (hline : lineParts l = ["2", "DATE", p])
    (hyear : extract_year (some p) = none) :
    (processLine s l).current = some
      { r with birth_year := if t = "BIRT" then none else r.birth_year
               death_year := if t = "DEAT" then none else r.death_year } := by
  unfold processLine
  rw [hline]
  simp only [List.headD, hcur, hlt]
  by_cases hbt : t = "BIRT"
  · subst hbt
    simp [hyear]
  · by_cases hdt : t = "DEAT"
    · subst hdt
      simp [hyear]
    · simp [hbt, hdt]

/-- Witness for C10: a BIRT date already recorded as 1850 is replaced by
absent when a second BIRT date line carries no parseable year. -/
theorem date_line_overwrites_with_none_witness :
    (processLine ⟨[], some ⟨"@I1@", some 1850, some 1920⟩, some "BIRT"⟩ "2 DATE unknown").current =
      some ⟨"@I1@", none, some 1920⟩ :=
  date_line_overwrites_with_none ⟨[], some ⟨"@I1@", some 1850, some 1920⟩, some "BIRT"⟩
    ⟨"@I1@", some 1850, some 1920⟩ "2 DATE unknown" "BIRT" "unknown" rfl rfl (by decide) (by decide)

/-- Deduplication of group keys preserves membership. -/
theorem mem_dedupNats (a : Nat) (l : List Nat) : a ∈ dedupNats l ↔ a ∈ l := by
  induction l with
  | nil => simp [dedupNats]
  | cons x xs ih =>
    rw [dedupNats]
    by_cases hx : xs.contains x
    · rw [if_pos hx, ih]
      have hxm : x ∈ xs := by simpa using hx
      constructor
      · intro h; exact List.mem_cons_of_mem x h
      · intro h
        rcases List.mem_cons.mp h with h | h
        · rw [h]; exact hxm
        · exact h
    · rw [if_neg hx]
      simp [ih]

/-- Insertion into a sorted key list preserves membership. -/
theorem mem_insertSorted (a d : Nat) (l : List Nat) :
    a ∈ insertSorted d l ↔ a = d ∨ a ∈ l := by
  induction l with
  | nil => simp [insertSorted]
  | cons x xs ih =>
    rw [insertSorted]
    by_cases hdx : d ≤ x
    · rw [if_pos hdx]
      simp
    · rw [if_neg hdx]
      simp [ih]
      tauto

/-- Sorting the group keys preserves membership. -/
theorem mem_sortNats (a : Nat) (l : List Nat) : a ∈ sortNats l ↔ a ∈ l := by
  induction l with
  | nil => simp [sortNats]
  | cons x xs ih =>
    rw [sortNats, mem_insertSorted, ih]
    simp

/-- Looking up a decade among the grouped rows of decades that contain it
yields exactly its group row. -/
theorem find?_groupRow_of_mem (rs : List Indi) (l : List Nat) (d : Nat) (hd : d ∈ l) :
    (l.map (groupRow rs)).find? (fun row => decide (row.decade = d)) = some (groupRow rs d) := by
  induction l with
  | nil => cases hd
  | cons x xs ih =>
    rw [List.map_cons, List.find?_cons]
    by_cases hx : x = d
    · subst hx
      simp [groupRow]
    · have : (decide ((groupRow rs x).decade = d)) = false := by
        simp [groupRow, hx]
      rw [this]
      refine ih ?_
      rcases List.mem_cons.mp hd with h | h
      · exact absurd h.symm hx
      · exact h

/-- Looking up a decade among grouped rows of decades not containing it
finds nothing. -/
theorem find?_groupRow_of_not_mem (rs : List Indi) (l : List Nat) (d : Nat) (hd : d ∉ l) :
    (l.map (groupRow rs)).find? (fun row => decide (row.decade = d)) = none := by
  induction l with
  | nil => rfl
  | cons x xs ih =>
    rw [List.map_cons, List.find?_cons]
    have hx : x ≠ d := fun h => hd (h ▸ List.mem_cons_self x xs)
    have : (decide ((groupRow rs x).decade = d)) = false := by
      simp [groupRow, hx]
    rw [this]
    exact ih (fun h => hd (List.mem_cons_of_mem x h))

/-- The merged, rounded statistics table row by row: for every decade of
the configured range, in order, the rounded group row when the decade has
records and a zero row otherwise. -/
theorem finalStats_eq (rs : List Indi) :
    finalStats rs = all_decades.map fun d =>
      if d ∈ rs.map decadeOf then
        { groupRow rs d with mean_age := roundTo1 (groupRow rs d).mean_age }
      else ⟨d, roundTo1 0, 0⟩ := by
  unfold finalStats mergedStats groupStats
  rw [List.map_map]
  refine List.map_congr_left fun d _ => ?_
  simp only [Function.comp_apply]
  by_cases hmem : d ∈ rs.map decadeOf
  · rw [find?_groupRow_of_mem rs _ d (by rw [mem_sortNats, mem_dedupNats]; exact hmem)]
    simp [hmem]
  · rw [find?_groupRow_of_not_mem rs _ d (by rw [mem_sortNats, mem_dedupNats]; exact hmem)]
    simp [hmem]

/-- Rounding an exactly zero mean gives zero. -/
theorem roundTo1_zero : roundTo1 0 = 0 := by
  simp [roundTo1, halfEven, qfloor]

/-- C3: for any record sequence fed to the aggregation, the statistics
table has exactly one row per decade 1800, 1810, ..., 1890, in ascending
order, and a decade containing no qualifying record gets mean_age = 0 and
count = 0. -/
theorem stats_decades_complete (rs : List Indi) :
    (finalStats rs).map StatRow.decade =
      [1800, 1810, 1820, 1830, 1840, 1850, 1860, 1870, 1880, 1890] ∧
    ∀ row ∈ finalStats rs,
      (rs.countP fun r => decide (decadeOf r = row.decade)) = 0 →
        row.mean_age = 0 ∧ row.count = 0 := by
  constructor
  · rw [finalStats_eq, List.map_map]
    have h1 : all_decades.map
        (StatRow.decade ∘ fun d =>
          if d ∈ rs.map decadeOf then
            { groupRow rs d with mean_age := roundTo1 (groupRow rs d).mean_age }
          else ⟨d, roundTo1 0, 0⟩) = all_decades.map id := by
      refine List.map_congr_left fun d _ => ?_
      simp only [Function.comp_apply, id]
      by_cases hmem : d ∈ rs.map decadeOf
      · rw [if_pos hmem]; rfl
      · rw [if_neg hmem]
    rw [h1, List.map_id]
    rfl
  · intro row hrow hcnt
    rw [finalStats_eq] at hrow
    obtain ⟨d, hd, rfl⟩ := List.mem_map.mp hrow
    by_cases hmem : d ∈ rs.map decadeOf
    · exfalso
      obtain ⟨r, hr, hrd⟩ := List.mem_map.mp hmem
      rw [if_pos hmem] at hcnt
      have hdec : decide (decadeOf r = ({ groupRow rs d with
          mean_age := roundTo1 (groupRow rs d).mean_age } : StatRow).decade) = true := by
        simp [groupRow, hrd]
      exact absurd (List.countP_eq_zero.mp hcnt r hr) (by simp [hdec])
    · rw [if_neg hmem]
      exact ⟨roundTo1_zero, rfl⟩

/-- Witness for C3 at the empty record sequence: the first row of the
table covers decade 1800 with zero mean and zero count. -/
theorem stats_decades_complete_witness :
    ((⟨1800, roundTo1 0, 0⟩ : StatRow).mean_age = 0 ∧
      (⟨1800, roundTo1 0, 0⟩ : StatRow).count = 0) :=
  (stats_decades_complete []).2 ⟨1800, roundTo1 0, 0⟩
    (by rw [finalStats_eq]; exact List.mem_map.mpr ⟨1800, by decide, by simp⟩)
    (by rfl)

/-- The conjunction of the three aggregation masks, written out: both years
present, age in [0, 120), and birth year within the configured window. -/
theorem qual_iff (r : Indi) :
    (hasBoth r = true ∧ ageOk r = true ∧ inRange r = true) ↔
      ∃ b d, r.birth_year = some b ∧ r.death_year = some d ∧
        0 ≤ (d : Int) - (b : Int) ∧ (d : Int) - (b : Int) < 120 ∧
        1800 ≤ b ∧ b ≤ 1899 := by
  rcases hb : r.birth_year with _ | b <;> rcases hd : r.death_year with _ | d <;>
    simp [hasBoth, ageOk, inRange, ageOf, start_year, end_year, hb, hd, and_assoc]

/-- C6: a record enters the decade statistics iff it came from the parsed
sequence and has both years present, an age `death_year - birth_year` with
`0 ≤ age < 120`, and a birth year in [1800, 1899]. -/
theorem record_in_stats_iff (rs : List Indi) (r : Indi) :
    r ∈ filteredOf rs ↔ r ∈ rs ∧ ∃ b d, r.birth_year = some b ∧ r.death_year = some d ∧
      0 ≤ (d : Int) - (b : Int) ∧ (d : Int) - (b : Int) < 120 ∧
      1800 ≤ b ∧ b ≤ 1899 := by
  unfold filteredOf dfValid
  simp only [List.mem_filter, and_assoc]
  exact and_congr_right fun _ => qual_iff r

/-- C7: each qualifying record is binned at decade
`birth_year / 10 * 10` (floor division), and every row of the produced
table carries the count of its decade's qualifying records and, when that
count is positive, the arithmetic mean of their ages rounded to one
decimal place. -/
theorem decade_mean_count (rs : List Indi) (_hne : rs ≠ []) :
    ∀ row ∈ finalStats rs,
      row.count = (rs.countP fun r => decide (decadeOf r = row.decade)) ∧
      (0 < row.count →
        row.mean_age = roundTo1
          ((((rs.filter fun r => decide (decadeOf r = row.decade)).map ageOf).sum : ℚ) /
            ((rs.countP fun r => decide (decadeOf r = row.decade)) : ℚ))) := by
  intro row hrow
  rw [finalStats_eq] at hrow
  obtain ⟨d, hd, rfl⟩ := List.mem_map.mp hrow
  by_cases hmem : d ∈ rs.map decadeOf
  · rw [if_pos hmem]
    constructor
    · simp [groupRow, List.countP_eq_length_filter]
    · intro hpos
      simp [groupRow, List.countP_eq_length_filter]
  · rw [if_neg hmem]
    have hzero : (rs.countP fun r => decide (decadeOf r = (⟨d, roundTo1 0, 0⟩ : StatRow).decade)) = 0 := by
      refine List.countP_eq_zero.mpr fun r hr => ?_
      simp only [decide_eq_true_eq]
      intro hdec
      exact hmem (List.mem_map.mpr ⟨r, hr, hdec⟩)
    refine ⟨hzero.symm, fun hpos => absurd hpos (by simp)⟩


/-- Witness for C7 at `sampleRecs`: the decade-1850 row counts one record
and carries the rounded mean of its ages. -/
theorem decade_mean_count_witness :
    sampleRow.count = (sampleRecs.countP fun r => decide (decadeOf r = sampleRow.decade)) ∧
    (0 < sampleRow.count →
      sampleRow.mean_age = roundTo1
        ((((sampleRecs.filter fun r => decide (decadeOf r = sampleRow.decade)).map ageOf).sum : ℚ) /
          ((sampleRecs.countP fun r => decide (decadeOf r = sampleRow.decade)) : ℚ))) :=
  decade_mean_count sampleRecs (by decide) sampleRow (by
    rw [finalStats_eq]
    refine List.mem_map.mpr ⟨1850, by decide, ?_⟩
    rw [if_pos (show (1850 : Nat) ∈ sampleRecs.map decadeOf by decide)]
    rfl)

/-- Both-years presence combined with the age sanity mask, written out. -/
theorem hasBoth_ageOk_eq (r : Indi) :
    (ageOk r && hasBoth r) =
      decide (r.birth_year.isSome ∧ r.death_year.isSome ∧
        0 ≤ (r.death_year.getD 0 : Int) - (r.birth_year.getD 0 : Int) ∧
        (r.death_year.getD 0 : Int) - (r.birth_year.getD 0 : Int) < 120) := by
  rcases hb : r.birth_year with _ | b <;> rcases hd : r.death_year with _ | d <;>
    simp [hasBoth, ageOk, ageOf, hb, hd]

/-- C1 counterexample: on `sampleDoc` the app reports a coverage total of
1, yet 2 parsed records have both a birth and a death year — record B,
with its negative age, is dropped from the coverage figure by the age
filter, so the reported total is not independent of that filtering. -/
theorem coverage_not_both_years_count :
    coverageOf (analyze sampleDoc) = some 1 ∧
    ((parse_gedcom_to_df sampleDoc).countP fun r =>
      decide (r.birth_year.isSome ∧ r.death_year.isSome)) = 2 := by
  decide

set_option maxHeartbeats 1000000 in
/-- C1 (amended): whenever statistics are reported, the coverage total
equals the number of parsed records that have both years present and an
age `death_year - birth_year` within [0, 120) — independent of the range
filter, but after the age sanity filter. -/
theorem coverage_total_eq (content : String) (t : List StatRow) (n c : Nat)
    (h : analyze content = AppResult.stats t n c) :
    c = ((parse_gedcom_to_df content).countP fun r =>
      decide (r.birth_year.isSome ∧ r.death_year.isSome ∧
        0 ≤ (r.death_year.getD 0 : Int) - (r.birth_year.getD 0 : Int) ∧
        (r.death_year.getD 0 : Int) - (r.birth_year.getD 0 : Int) < 120)) := by
  unfold analyze at h
  by_cases h1 : (parse_gedcom_to_df content).isEmpty
  · rw [if_pos h1] at h; cases h
  · rw [if_neg h1] at h
    by_cases h2 : ((dfValid (parse_gedcom_to_df content)).filter inRange).isEmpty
    · rw [if_pos h2] at h; cases h
    · rw [if_neg h2] at h
      rw [AppResult.stats.injEq] at h
      obtain ⟨-, -, hc⟩ := h
      rw [← hc]
      have hlen : (dfValid (parse_gedcom_to_df content)).length =
          (parse_gedcom_to_df content).countP fun r => ageOk r && hasBoth r := by
        unfold dfValid
        rw [List.filter_filter]
        exact (List.countP_eq_length_filter _ _).symm
      rw [hlen]
      exact List.countP_congr fun r _ => by rw [hasBoth_ageOk_eq r]

set_option maxHeartbeats 2000000 in
/-- Witness for C1 (amended) at `sampleDoc`: the reported coverage 1
matches the one record with both years and a plausible age. -/
theorem coverage_total_eq_witness :
    (1 : Nat) = ((parse_gedcom_to_df sampleDoc).countP fun r =>
      decide (r.birth_year.isSome ∧ r.death_year.isSome ∧
        0 ≤ (r.death_year.getD 0 : Int) - (r.birth_year.getD 0 : Int) ∧
        (r.death_year.getD 0 : Int) - (r.birth_year.getD 0 : Int) < 120)) :=
  coverage_total_eq sampleDoc
    (finalStats (filteredOf (parse_gedcom_to_df sampleDoc)))
    (((finalStats (filteredOf (parse_gedcom_to_df sampleDoc))).map StatRow.count).sum)
    1 rfl

/-- C9 counterexample: the empty document's record sequence is empty after
filtering, yet the app produces the error outcome (the `KeyError` of
`dropna` on a column-less frame, caught by the `except` branch), not the
no-data notice. -/
theorem empty_parse_is_error :
    filteredOf (parse_gedcom_to_df "") = [] ∧ analyze "" = AppResult.error := by
  decide

/-- C9 (amended): whenever the parser finds at least one individual but no
record survives the filtering steps, the app reports the distinct no-data
notice — not an error and not a statistics table. -/
theorem no_data_notice (content : String)
    (hne : parse_gedcom_to_df content ≠ [])
    (hempty : filteredOf (parse_gedcom_to_df content) = []) :
    analyze content = AppResult.noData := by
  unfold filteredOf at hempty
  unfold analyze
  rw [if_neg (by simpa using hne), if_pos (by simpa using hempty)]

/-- Witness for C9 (amended): one individual with no dates parses to a
nonempty sequence that filtering empties, and the app shows the notice. -/
theorem no_data_notice_witness : analyze "0 @A@ INDI" = AppResult.noData :=
  no_data_notice "0 @A@ INDI" (by decide) (by decide)

/-- The spot checks of the spec for the year extractor, as the code
computes them. -/
theorem extract_year_spec_examples :
    extract_year (some "ABT 1850") = some 1850 ∧
    extract_year (some "12 JAN 1850") = some 1850 ∧
    extract_year (some "") = none ∧
    extract_year none = none ∧
    extract_year (some "no digits here") = none := by
  decide
